import Mathlib

set_option linter.unusedVariables false

namespace FileUpload

/-- JavaScript-style error value: the message attached to the thrown Error and
the optional statusCode property set at the construction site (absent on raw
filesystem errors, which carry no statusCode). -/
structure JsError where
  message : String
  statusCode : Option Nat
deriving Repr, DecidableEq

/-- FILE_LIMITS.MAX_FILE_SIZE from config/constants: 5 MiB in bytes. -/
def MAX_FILE_SIZE : Nat := 5 * 1024 * 1024

/-- FILE_LIMITS.BYTES_PER_MB conversion factor. -/
def BYTES_PER_MB : Nat := 1024 * 1024

/-- SECURITY.ALLOWED_FILE_TYPES: allowed extension to its acceptable MIME types. -/
def ALLOWED_FILES : List (String × List String) :=
  [(".jpg", ["image/jpeg"]),
   (".jpeg", ["image/jpeg"]),
   (".png", ["image/png"]),
   (".gif", ["image/gif"]),
   (".pdf", ["application/pdf"]),
   (".txt", ["text/plain"])]

/-- SECURITY.FILE_SIGNATURES: registered magic-number prefixes per MIME type;
text/plain deliberately has none. -/
def FILE_SIGNATURES : List (String × List (List Nat)) :=
  [("image/jpeg", [[0xFF, 0xD8, 0xFF]]),
   ("image/png", [[0x89, 0x50, 0x4E, 0x47]]),
   ("image/gif", [[0x47, 0x49, 0x46, 0x38]]),
   ("application/pdf", [[0x25, 0x50, 0x44, 0x46]]),
   ("text/plain", [])]

/-- The deliberately generic rejection message shared by the cross-validation
and signature checks. -/
def HACKER_MESSAGE : String := "¿Te creí hacker acaso?"

/-- A multer in-memory file object: the properties the validation pipeline and
controller read. buffer is the byte content, mimetype the client-declared
content type, size the byte count multer reports. -/
structure UploadedFile where
  originalname : String
  mimetype : String
  buffer : List Nat
  size : Nat
deriving Repr, DecidableEq

/-- Suffix of the character list starting at the last occurrence of c,
mirroring lastIndexOf plus substring in extractExtension. -/
def suffixFromLast (c : Char) : List Char → Option (List Char)
  | [] => none
  | x :: xs =>
    match suffixFromLast c xs with
    | some r => some r
    | none => if x = c then some (x :: xs) else none

/-- FileValidationService.extractExtension: substring from the last dot,
lowercased; a 400 error when there is no dot or the dot is the final
character. -/
def extractExtension (filename : String) : Except JsError String :=
  match suffixFromLast '.' filename.toList with
  | none => .error ⟨"File must have a valid extension", some 400⟩
  | some suf =>
    if suf.length == 1 then .error ⟨"File must have a valid extension", some 400⟩
    else .ok (String.mk (suf.map Char.toLower))

/-- The joined allow-list used in the extension rejection message. -/
def allowedExtensionsJoined : String :=
  String.intercalate ", " (ALLOWED_FILES.map Prod.fst)

/-- FileValidationService.validateExtension: the extension must be a key of
ALLOWED_FILES. -/
def validateExtension (filename : String) : Except JsError String := do
  let ext ← extractExtension filename
  match ALLOWED_FILES.lookup ext with
  | none => .error ⟨"File extension not allowed. Allowed extensions: " ++ allowedExtensionsJoined, some 400⟩
  | some _ => .ok ext

/-- MIME_TABLE models the mime-types library's extension-to-type table,
restricted to the extensions that can pass the preceding allow-list gate plus
a few representative others; unknown extensions yield none, as mime.lookup
returns false there. -/
def MIME_TABLE : List (String × String) :=
  [(".jpg", "image/jpeg"), (".jpeg", "image/jpeg"), (".png", "image/png"),
   (".gif", "image/gif"), (".pdf", "application/pdf"), (".txt", "text/plain"),
   (".js", "application/javascript"), (".webp", "image/webp"), (".html", "text/html")]

/-- Models mime.lookup: infer a MIME type from the name's final extension,
case-insensitively; none when the extension is unknown or absent. -/
def mimeLookup (filename : String) : Option String :=
  match suffixFromLast '.' filename.toList with
  | none => none
  | some suf => MIME_TABLE.lookup (String.mk (suf.map Char.toLower))

/-- FileValidationService.validateMimeType: infer the type from the filename,
never from the client-declared header; 400 when none can be inferred. -/
def validateMimeType (f : UploadedFile) : Except JsError String :=
  match mimeLookup f.originalname with
  | none => .error ⟨"Could not determine file type", some 400⟩
  | some mt => .ok mt

/-- FileValidationService.crossValidateExtensionAndMime. When the extension is
not a key of ALLOWED_FILES the source would crash reading includes of
undefined; that branch is unreachable because validateExtension runs first,
and is modeled as a statusCode-less TypeError. -/
def crossValidateExtensionAndMime (extension mimeType : String) : Except JsError Unit :=
  match ALLOWED_FILES.lookup extension with
  | none => .error ⟨"Cannot read properties of undefined", none⟩
  | some allowed =>
    if allowed.contains mimeType then .ok ()
    else .error ⟨HACKER_MESSAGE, some 400⟩

/-- Element-by-element comparison loop inside bufferStartsWith. -/
def bytesStartWith : List Nat → List Nat → Bool
  | _, [] => true
  | [], _ :: _ => false
  | b :: buf, s :: sig => b == s && bytesStartWith buf sig

/-- FileValidationService.bufferStartsWith: false when the buffer is shorter
than the signature, else compare the leading bytes. -/
def bufferStartsWith (buffer signature : List Nat) : Bool :=
  if buffer.length < signature.length then false
  else bytesStartWith buffer signature

/-- FileValidationService.validateFileSignature: skip when the type has no
registered signatures, otherwise some registered prefix must match. -/
def validateFileSignature (f : UploadedFile) (expectedMimeType : String) : Except JsError Unit :=
  match FILE_SIGNATURES.lookup expectedMimeType with
  | none => .ok ()
  | some signatures =>
    if signatures.isEmpty then .ok ()
    else if signatures.any (fun s => bufferStartsWith f.buffer s) then .ok ()
    else .error ⟨HACKER_MESSAGE, some 400⟩

/-- Result object returned (not thrown) by validateFileSize. -/
structure SizeCheckResult where
  isValid : Bool
  error : Option String
  errorCode : Option String
deriving Repr, DecidableEq

/-- JS comparison x > n when x may be undefined: undefined compares false. -/
def jsGtUndef (x : Option Nat) (n : Nat) : Bool :=
  match x with
  | none => false
  | some v => n < v

/-- Two-decimal megabyte figure used in the size-check message. The source
formats with toFixed(2) on a binary float; this fixed-point rendering can
differ in the last rounding digit, which is unobservable because validateFile
discards the result carrying it. -/
def mbFixed2 (bytes : Nat) : String :=
  let cents := bytes * 100 / BYTES_PER_MB
  toString (cents / 100) ++ "." ++ (if cents % 100 < 10 then "0" else "") ++ toString (cents % 100)

/-- FileValidationService.validateFileSize: reads .length on its argument and
returns a result object; it never throws. validateFile passes the whole
multer file object, which has no length property, so there len is none. -/
def validateFileSize (len : Option Nat) : SizeCheckResult :=
  if jsGtUndef len MAX_FILE_SIZE then
    { isValid := false,
      error := some ("File size " ++ mbFixed2 (len.getD 0) ++ "MB exceeds maximum allowed size of "
        ++ mbFixed2 MAX_FILE_SIZE ++ "MB"),
      errorCode := some "FILE_TOO_LARGE" }
  else { isValid := true, error := none, errorCode := none }

/-- Return value of validateFile on success. -/
structure ValidationResult where
  isValid : Bool
  extension : String
  mimeType : String
  size : Nat
deriving Repr, DecidableEq

/-- Reading .length on a multer file object: the property does not exist, so
the value is undefined. -/
def fileLengthProperty (_f : UploadedFile) : Option Nat := none

/-- FileValidationService.validateFile: the five checks in source order. The
size check's returned result object is bound to no use and discarded, exactly
as in the source, which neither throws from validateFileSize nor inspects its
return value. -/
def validateFile (f : UploadedFile) : Except JsError ValidationResult := do
  let _sizeCheck := validateFileSize (fileLengthProperty f)
  let extension ← validateExtension f.originalname
  let detectedMimeType ← validateMimeType f
  crossValidateExtensionAndMime extension detectedMimeType
  validateFileSignature f detectedMimeType
  .ok { isValid := true, extension := extension, mimeType := detectedMimeType, size := f.size }

/-- Row of the cleanup_queue table: name, fail_time, delete_state.
delete_state false means the entry is pending/unresolved. -/
structure QueueRow where
  name : String
  fail_time : Nat
  delete_state : Bool
deriving Repr, DecidableEq

/-- Row of the images_metadata table. mask_name holds the client display name
and is nullable at the SQL level: create inserts whatever the caller's
maskName property held, and an undefined property becomes NULL. -/
structure FileRecordRow where
  name : String
  mask_name : Option String
  path : String
  mime : String
  size : Nat
deriving Repr, DecidableEq

/-- Object destructured by ImageMetadataRepository.create: properties name,
maskName, path, mime, size. A fresh upload's metadata object carries maskName;
a row read back from the database instead carries the column name mask_name,
so on such an object the maskName property is undefined (none). -/
structure MetadataArg where
  name : String
  maskName : Option String
  path : String
  mime : String
  size : Nat
deriving Repr, DecidableEq

/-- Reading the create-properties off a database row: the row's display-name
key is mask_name, so the camelCase maskName that create destructures is
undefined there. -/
def createArgOfRow (r : FileRecordRow) : MetadataArg :=
  { name := r.name, maskName := none, path := r.path, mime := r.mime, size := r.size }

/-- Combined persistent state: the images_metadata table, the cleanup_queue
table, and the uploads directory (Content Store), the latter modeled as the
list of stored blob names — byte content is irrelevant to the consistency
properties proved here. -/
structure World where
  images : List FileRecordRow
  queue : List QueueRow
  files : List String
deriving Repr, DecidableEq

/-- ImageMetadataRepository.create over the state. fail injects a failure of
the underlying query (wrapped as a 500 Database error); a duplicate name is
the uniqueness violation the state itself determines, surfaced as the 409
duplicate-key error. -/
def repoCreate (w : World) (m : MetadataArg) (fail : Option String) : Except JsError World :=
  match fail with
  | some msg => .error ⟨"Database error: " ++ msg, some 500⟩
  | none =>
    if w.images.any (fun r => r.name == m.name) then
      .error ⟨"File with this name already exists", some 409⟩
    else
      .ok { w with images := w.images ++ [⟨m.name, m.maskName, m.path, m.mime, m.size⟩] }

/-- ImageMetadataRepository.findByName: none when no row matches. -/
def repoFindByName (w : World) (name : String) : Option FileRecordRow :=
  w.images.find? (fun r => r.name == name)

/-- ImageMetadataRepository.delete: 404 when no row matched, a wrapped 500
when the query itself fails. -/
def repoDelete (w : World) (name : String) (fail : Option String) : Except JsError World :=
  match fail with
  | some msg => .error ⟨"Database error: " ++ msg, some 500⟩
  | none =>
    if w.images.any (fun r => r.name == name) then
      .ok { w with images := w.images.filter (fun r => r.name != name) }
    else .error ⟨"File not found", some 404⟩

/-- FileStorageService.saveFile: on success the name is stored; on an
underlying fs failure the service wraps the error with statusCode 500. Its
internal cleanup attempt of a partial write has no effect in this model,
which records no partial writes. -/
def storageSaveFile (w : World) (filename : String) (fail : Option String) : Except JsError World :=
  match fail with
  | some msg => .error ⟨"File storage failed: " ++ msg, some 500⟩
  | none => .ok { w with files := w.files ++ [filename] }

/-- FileStorageService.deleteFile: true when the blob existed and was removed;
false on ENOENT (absence is not an error); any other fs failure is rethrown
raw, carrying no statusCode. -/
def storageDeleteFile (w : World) (filename : String) (fail : Option String) :
    Except JsError (Bool × World) :=
  match fail with
  | some msg => .error ⟨msg, none⟩
  | none =>
    if w.files.contains filename then
      .ok (true, { w with files := w.files.filter (fun n => n != filename) })
    else .ok (false, w)

/-- FileStorageService.fileExists. -/
def storageFileExists (w : World) (filename : String) : Bool :=
  w.files.contains filename

/-- Upsert effect of the INSERT ... ON CONFLICT (name) DO UPDATE statement in
CleanupQueueRepository.add: refresh fail_time and reset delete_state when the
name is already queued, insert a fresh pending row otherwise. -/
def queueUpsert (q : List QueueRow) (name : String) (now : Nat) : List QueueRow :=
  if q.any (fun e => e.name == name) then
    q.map (fun e => if e.name == name then { e with fail_time := now, delete_state := false } else e)
  else q ++ [⟨name, now, false⟩]

/-- CleanupQueueRepository.add: the upsert, or a wrapped 500 database error. -/
def queueAdd (w : World) (name : String) (now : Nat) (fail : Option String) : Except JsError World :=
  match fail with
  | some msg => .error ⟨"Database error: " ++ msg, some 500⟩
  | none => .ok { w with queue := queueUpsert w.queue name now }

/-- CleanupQueueRepository.markAsProcessed: set delete_state on the named row;
a missing row is a logged no-op. -/
def markAsProcessed (w : World) (name : String) (success : Bool) : World :=
  { w with queue := w.queue.map (fun e =>
      if e.name == name then { e with delete_state := success } else e) }

/-- TransactionService.addToCleanupQueue: enqueue failures are logged and
swallowed (the acknowledged last line of defense), so this never throws. -/
def addToCleanupQueue (w : World) (filename : String) (now : Nat) (fail : Option String) : World :=
  match queueAdd w filename now fail with
  | .ok w2 => w2
  | .error _ => w

/-- Injected outcomes of the external I/O calls an upload transaction can
make, one field per call site; none means that call succeeds. -/
structure UploadFaults where
  saveFileErr : Option String
  createErr : Option String
  rollbackRepoDeleteErr : Option String
  rollbackFileDeleteErr : Option String
  queueAddErr : Option String
deriving Repr, DecidableEq

/-- All upload-side I/O succeeds. -/
def noUploadFaults : UploadFaults := ⟨none, none, none, none, none⟩

/-- TransactionService.rollbackUploadTransaction. Both rollback steps guard
their own failures and divert to the cleanup queue, so the function never
throws; the outer catch in the source is unreachable. -/
def rollbackUploadTransaction (w : World) (filename : String)
    (savedFile savedMetadata : Bool) (fl : UploadFaults) (now : Nat) : World :=
  let w1 :=
    if savedMetadata then
      match repoDelete w filename fl.rollbackRepoDeleteErr with
      | .ok w2 => w2
      | .error _ => addToCleanupQueue w filename now fl.queueAddErr
    else w
  if savedFile then
    match storageDeleteFile w1 filename fl.rollbackFileDeleteErr with
    | .ok (_, w2) => w2
    | .error _ => addToCleanupQueue w1 filename now fl.queueAddErr
  else w1

/-- Success value of executeUploadTransaction. -/
structure UploadTxResult where
  filename : String
  metadata : MetadataArg
deriving Repr, DecidableEq

/-- TransactionService.executeUploadTransaction: save the blob, insert the
metadata, and on any failure run the rollback (with the savedFile and
savedMetadata flags reached) and rethrow the original error. The byte buffer
influences no modeled state beyond the stored name. -/
def executeUploadTransaction (w : World) (fileBuffer : List Nat) (filename : String)
    (metadata : MetadataArg) (fl : UploadFaults) (now : Nat) :
    Except JsError UploadTxResult × World :=
  match storageSaveFile w filename fl.saveFileErr with
  | .error e => (.error e, rollbackUploadTransaction w filename false false fl now)
  | .ok w1 =>
    match repoCreate w1 metadata fl.createErr with
    | .error e => (.error e, rollbackUploadTransaction w1 filename true false fl now)
    | .ok w2 => (.ok ⟨filename, metadata⟩, w2)

/-- Injected outcomes of the external I/O calls a delete transaction can
make, one field per call site; none means that call succeeds. -/
structure DeleteFaults where
  findErr : Option String
  repoDeleteErr : Option String
  fileDeleteErr : Option String
  rollbackCreateErr : Option String
  queueAddErr : Option String
deriving Repr, DecidableEq

/-- All delete-side I/O succeeds. -/
def noDeleteFaults : DeleteFaults := ⟨none, none, none, none, none⟩

/-- The distinguished critical-inconsistency error thrown when the delete
rollback's re-insert fails. -/
def criticalRollbackError : JsError :=
  ⟨"Critical system failure during rollback. Operations team has been notified.", some 500⟩

/-- TransactionService.rollbackDeleteTransaction: re-insert the original row
when the database deletion had succeeded; when the re-insert fails, enqueue
the name and throw the distinguished critical error (modeled as some). -/
def rollbackDeleteTransaction (w : World) (filename : String)
    (originalMetadata : Option FileRecordRow) (deletedFromDatabase : Bool)
    (fl : DeleteFaults) (now : Nat) : Option JsError × World :=
  match originalMetadata with
  | none => (none, w)
  | some row =>
    if deletedFromDatabase then
      match repoCreate w (createArgOfRow row) fl.rollbackCreateErr with
      | .ok w2 => (none, w2)
      | .error _ => (some criticalRollbackError, addToCleanupQueue w filename now fl.queueAddErr)
    else (none, w)

/-- Success value of executeDeleteTransaction. -/
structure DeleteTxResult where
  filename : String
  originalMetadata : FileRecordRow
deriving Repr, DecidableEq

/-- TransactionService.executeDeleteTransaction: read the row, delete the row,
delete the blob (absence is not an error); on a blob-deletion failure run the
delete rollback — when the rollback itself throws, its critical error replaces
the original. In the branches that fail before the database deletion the
rollback call is a no-op (originalMetadata null or deletedFromDatabase false)
and the state is returned unchanged. -/
def executeDeleteTransaction (w : World) (filename : String) (fl : DeleteFaults) (now : Nat) :
    Except JsError DeleteTxResult × World :=
  match fl.findErr with
  | some msg => (.error ⟨"Database error: " ++ msg, some 500⟩, w)
  | none =>
    match repoFindByName w filename with
    | none => (.error ⟨"File not found in database", some 404⟩, w)
    | some row =>
      match repoDelete w filename fl.repoDeleteErr with
      | .error e => (.error e, w)
      | .ok w1 =>
        match storageDeleteFile w1 filename fl.fileDeleteErr with
        | .ok (_, w2) => (.ok ⟨filename, row⟩, w2)
        | .error e =>
          match rollbackDeleteTransaction w1 filename (some row) true fl now with
          | (none, w2) => (.error e, w2)
          | (some ce, w2) => (.error ce, w2)

/-- Body of the per-item processing loop in
TransactionService.processCleanupQueue, for a run in which the store
operations themselves succeed (the per-item catch is then unreachable). -/
def processOneCleanupItem (w : World) (name : String) : World :=
  match repoFindByName w name with
  | none =>
    let w1 :=
      if storageFileExists w name then
        match storageDeleteFile w name none with
        | .ok (_, w2) => w2
        | .error _ => w
      else w
    markAsProcessed w1 name true
  | some _ =>
    if storageFileExists w name then markAsProcessed w name true
    else markAsProcessed w name false

/-- Names of the pending queue entries — the batch getPending returns. The SQL
orders the batch by fail_time and caps it at 100; ordering and cap do not
change any per-name outcome below and are omitted. -/
def pendingNames (w : World) : List String :=
  (w.queue.filter (fun e => e.delete_state == false)).map (fun e => e.name)

/-- TransactionService.processCleanupQueue for a fault-free run: take the
pending batch once, process each entry in turn, report the processed count. -/
def processCleanupQueue (w : World) : Nat × World :=
  ((pendingNames w).length, (pendingNames w).foldl processOneCleanupItem w)

/-- Queue row stored under a name, if any. -/
def queueEntry (w : World) (n : String) : Option QueueRow :=
  w.queue.find? (fun e => e.name == n)

/-- Success payload of the controller's upload response. -/
structure SuccessData where
  filename : String
  originalname : String
  url : String
  mimetype : String
  size : Nat
deriving Repr, DecidableEq

/-- Response the controller sends: HTTP status plus either the success payload
or the error body's message. -/
inductive ControllerResponse where
  | success (status : Nat) (data : SuccessData)
  | failure (status : Nat) (errorMessage : String)
deriving Repr, DecidableEq

/-- Error branch of the controller's catch: statusCode defaulting to 500, and
the raw message only for sub-500 statuses. -/
def catchResponse (e : JsError) : ControllerResponse :=
  .failure (e.statusCode.getD 500)
    (if e.statusCode.getD 500 < 500 then e.message else "Internal server error")

/-- Output of the (opaque) Sharp-based transform. -/
structure TransformResult where
  buffer : List Nat
  extension : String
  wasTransformed : Bool
deriving Repr, DecidableEq

/-- ImageTransformationService.isTransformableImage. -/
def isTransformableImage (mimeType : String) : Bool :=
  mimeType.startsWith "image/" && mimeType != "image/gif"

/-- ImageController.uploadImage, with the Sharp-based transform left opaque as
a parameter and hasTransformQuery standing for hasAnyTransformation of the
query. uniqueName stands for the generated timestamp-plus-uuid name. The
success response echoes the client-declared mimetype of req.file and the
length of the original req.file.buffer, while the metadata record receives
the validated mimeType and the post-transform buffer length. -/
def uploadImage (reqFile : Option UploadedFile) (hasTransformQuery : Bool)
    (transform : List Nat → String → Except JsError TransformResult)
    (uniqueName : String) (w : World) (fl : UploadFaults) (now : Nat) :
    ControllerResponse × World :=
  match reqFile with
  | none => (.failure 400 "No file provided", w)
  | some file =>
    match validateFile file with
    | .error e => (catchResponse e, w)
    | .ok vr =>
      let transformed : Except JsError TransformResult :=
        if hasTransformQuery then
          if isTransformableImage vr.mimeType then transform file.buffer vr.extension
          else .error ⟨"Transformation not supported", some 400⟩
        else .ok ⟨file.buffer, vr.extension, false⟩
      match transformed with
      | .error e => (catchResponse e, w)
      | .ok tr =>
        let metadata : MetadataArg :=
          { name := uniqueName, maskName := some file.originalname,
            path := "/uploads/" ++ uniqueName, mime := vr.mimeType,
            size := tr.buffer.length }
        match executeUploadTransaction w tr.buffer uniqueName metadata fl now with
        | (.error e, w2) => (catchResponse e, w2)
        | (.ok _, w2) =>
          (.success 200
            { filename := uniqueName, originalname := file.originalname,
              url := "/images/" ++ uniqueName, mimetype := file.mimetype,
              size := file.buffer.length }, w2)

/-- A fully present file, used for the delete-rollback scenario. -/
def c2World : World :=
  { images := [⟨"17_ab.png", some "photo.png", "/uploads/17_ab.png", "image/png", 120000⟩],
    queue := [], files := ["17_ab.png"] }

/-- Blob deletion fails with a permission error; everything else succeeds. -/
def c2Faults : DeleteFaults :=
  { findErr := none, repoDeleteErr := none,
    fileDeleteErr := some "EACCES: permission denied",
    rollbackCreateErr := none, queueAddErr := none }

/-- A genuine PNG buffer (magic prefix then 5 MiB of payload) whose total
length exceeds MAX_FILE_SIZE. -/
def oversizedPng : UploadedFile :=
  { originalname := "big.png", mimetype := "image/png",
    buffer := [0x89, 0x50, 0x4E, 0x47] ++ List.replicate (5 * 1024 * 1024) 0,
    size := 5 * 1024 * 1024 + 4 }

/-- A genuine PNG upload whose client-declared content type is a lie. -/
def c9File : UploadedFile :=
  ⟨"photo.png", "application/x-evil", [0x89, 0x50, 0x4E, 0x47, 0], 5⟩

/-- A pass-through stand-in for the opaque transform (never invoked when the
query requests no transformation). -/
def c9Transform : List Nat → String → Except JsError TransformResult :=
  fun b e => .ok ⟨b, e, false⟩

/-! Helper lemmas about strings, lists and the embedded primitives. -/

theorem string_data_append (a b : String) : (a ++ b).data = a.data ++ b.data := by
  cases a; cases b; rfl

theorem string_ne_append_of_take_ne (s p m : String)
    (h : ¬ s.data.take p.data.length = p.data) : s ≠ p ++ m := by
  intro he
  exact h (by rw [he, string_data_append, List.take_left])

theorem critical_message_not_db (m : String) :
    criticalRollbackError.message ≠ "Database error: " ++ m :=
  string_ne_append_of_take_ne _ _ m (by decide)

theorem critical_message_not_storage (m : String) :
    criticalRollbackError.message ≠ "File storage failed: " ++ m :=
  string_ne_append_of_take_ne _ _ m (by decide)

theorem contains_append_self (l : List String) (a : String) :
    (l ++ [a]).contains a = true := by simp

theorem contains_filter_ne (l : List String) (a b : String) (h : a ≠ b) :
    (l.filter (fun x => x != b)).contains a = l.contains a := by
  simp [List.contains, h]

theorem contains_filter_self (l : List String) (a : String) :
    (l.filter (fun x => x != a)).contains a = false := by
  simp [List.contains]

theorem any_of_find?_some {p : FileRecordRow → Bool} {l : List FileRecordRow} {r : FileRecordRow}
    (h : l.find? p = some r) : l.any p = true := by
  have : (l.find? p).isSome := by rw [h]; rfl
  rw [List.find?_isSome] at this
  exact List.any_eq_true.mpr this

/-! Claim theorems. -/

/-- Claim C2 is a code bug: after a successful metadata removal and a failed
blob deletion, the compensating re-insert loses the display name. The rollback
passes the database row to create, which destructures the camelCase property
maskName; the row carries the column key mask_name, so the re-inserted record
has a NULL display name, while the surfaced error is the original one. The
record afterwards differs from the one read before deletion. -/
theorem delete_rollback_loses_display_name :
    executeDeleteTransaction c2World "17_ab.png" c2Faults 7 =
      (.error ⟨"EACCES: permission denied", none⟩,
       { images := [⟨"17_ab.png", none, "/uploads/17_ab.png", "image/png", 120000⟩],
         queue := [], files := ["17_ab.png"] }) ∧
    repoFindByName (executeDeleteTransaction c2World "17_ab.png" c2Faults 7).2 "17_ab.png" ≠
      repoFindByName c2World "17_ab.png" := by
  constructor
  · rfl
  · intro h
    exact absurd (Option.some.inj h) (by decide)

/-- Claim C5: deleting a name whose metadata exists but whose blob is absent
succeeds — the metadata row is removed, the missing blob is not an error, no
compensation runs (queue and content store untouched), and the caller gets
the success result echoing the record read before deletion. -/
theorem delete_missing_blob_succeeds
    (w : World) (filename : String) (fl : DeleteFaults) (now : Nat) (row : FileRecordRow)
    (hfind : fl.findErr = none)
    (hrow : repoFindByName w filename = some row)
    (hdel : fl.repoDeleteErr = none)
    (hfs : fl.fileDeleteErr = none)
    (habsent : storageFileExists w filename = false) :
    executeDeleteTransaction w filename fl now =
      (.ok ⟨filename, row⟩,
       { w with images := w.images.filter (fun r => r.name != filename) }) := by
  have hany : w.images.any (fun r => r.name == filename) = true := by
    exact any_of_find?_some hrow
  unfold executeDeleteTransaction
  rw [hfind, hrow, hdel]
  unfold repoDelete
  rw [hany]
  simp only [if_true]
  rw [hfs]
  unfold storageDeleteFile
  have : ({ w with images := w.images.filter (fun r => r.name != filename) } : World).files.contains filename = false := habsent
  rw [this]
  rfl

/-- Witness for delete_missing_blob_succeeds at a concrete world. -/
theorem delete_missing_blob_succeeds_witness :
    executeDeleteTransaction
        ⟨[⟨"g.png", some "orig.png", "/uploads/g.png", "image/png", 9⟩], [], []⟩
        "g.png" noDeleteFaults 3 =
      (.ok ⟨"g.png", ⟨"g.png", some "orig.png", "/uploads/g.png", "image/png", 9⟩⟩,
       ⟨[], [], []⟩) :=
  delete_missing_blob_succeeds
    ⟨[⟨"g.png", some "orig.png", "/uploads/g.png", "image/png", 9⟩], [], []⟩
    "g.png" noDeleteFaults 3
    ⟨"g.png", some "orig.png", "/uploads/g.png", "image/png", 9⟩
    rfl rfl rfl rfl rfl

/-- Claim C7: a rejection at the extension/MIME cross-validation stage and a
rejection at the binary-signature stage carry the identical error value — the
same generic message and the same 400 status — so the caller cannot tell
which check failed. -/
theorem cross_and_signature_rejections_identical
    (ext mt : String) (ts : List String) (f : UploadedFile) (mt2 : String) (e1 e2 : JsError)
    (hallow : ALLOWED_FILES.lookup ext = some ts)
    (h1 : crossValidateExtensionAndMime ext mt = .error e1)
    (h2 : validateFileSignature f mt2 = .error e2) :
    e1 = e2 ∧ e1.message = HACKER_MESSAGE ∧ e1.statusCode = some 400 := by
  unfold crossValidateExtensionAndMime at h1
  rw [hallow] at h1
  dsimp only at h1
  have he1 : e1 = ⟨HACKER_MESSAGE, some 400⟩ := by
    by_cases hc : ts.contains mt
    · rw [if_pos hc] at h1; cases h1
    · rw [if_neg hc] at h1; exact (Except.error.inj h1).symm
  unfold validateFileSignature at h2
  have he2 : e2 = ⟨HACKER_MESSAGE, some 400⟩ := by
    cases hs : FILE_SIGNATURES.lookup mt2 with
    | none => rw [hs] at h2; cases h2
    | some sigs =>
      rw [hs] at h2
      dsimp only at h2
      by_cases hemp : sigs.isEmpty
      · rw [if_pos hemp] at h2; cases h2
      · rw [if_neg hemp] at h2
        by_cases hm : sigs.any (fun s => bufferStartsWith f.buffer s)
        · rw [if_pos hm] at h2; cases h2
        · rw [if_neg hm] at h2; exact (Except.error.inj h2).symm
  subst he1; subst he2
  exact ⟨rfl, rfl, rfl⟩

/-- Witness for cross_and_signature_rejections_identical: a png extension with
a mismatched inferred type on one side, and a signatureless empty buffer
claiming image/png on the other. -/
theorem cross_and_signature_rejections_identical_witness :
    (⟨HACKER_MESSAGE, some 400⟩ : JsError) = ⟨HACKER_MESSAGE, some 400⟩ ∧
    (⟨HACKER_MESSAGE, some 400⟩ : JsError).message = HACKER_MESSAGE ∧
    (⟨HACKER_MESSAGE, some 400⟩ : JsError).statusCode = some 400 :=
  cross_and_signature_rejections_identical ".png" "text/plain" ["image/png"]
    ⟨"x.bin", "application/octet-stream", [], 0⟩ "image/png"
    ⟨HACKER_MESSAGE, some 400⟩ ⟨HACKER_MESSAGE, some 400⟩ rfl rfl rfl

/-- The upsert leaves a pending entry for the name, timestamped now. -/
theorem queueUpsert_pending_entry (q : List QueueRow) (n : String) (t : Nat) :
    ∃ en ∈ queueUpsert q n t, en.name = n ∧ en.delete_state = false ∧ en.fail_time = t := by
  unfold queueUpsert
  by_cases h : q.any (fun e => e.name == n)
  · rw [if_pos h]
    obtain ⟨x, hx, hpx⟩ := List.any_eq_true.mp h
    refine ⟨⟨x.name, t, false⟩, ?_, ?_, rfl, rfl⟩
    · refine List.mem_map.mpr ⟨x, hx, ?_⟩
      rw [if_pos hpx]
    · exact beq_iff_eq.mp hpx
  · rw [if_neg h]
    exact ⟨⟨n, t, false⟩, List.mem_append_right _ (List.mem_singleton.mpr rfl), rfl, rfl, rfl⟩

/-- Claim C1: when the blob write succeeds and the metadata insert fails, the
upload transaction surfaces the original insert error in every case; the
rollback deletes the just-written blob (queue and metadata untouched), and
when that deletion throws, the name is enqueued pending instead, leaving the
blob orphaned but the queue aware. -/
theorem upload_insert_failure_compensation
    (w : World) (buf : List Nat) (filename : String) (m : MetadataArg)
    (fl : UploadFaults) (now : Nat) (e : JsError)
    (hsave : fl.saveFileErr = none)
    (hfail : repoCreate { w with files := w.files ++ [filename] } m fl.createErr = .error e) :
    (executeUploadTransaction w buf filename m fl now).1 = .error e ∧
    (fl.rollbackFileDeleteErr = none →
      (executeUploadTransaction w buf filename m fl now).2 =
        { w with files := (w.files ++ [filename]).filter (fun n => n != filename) }) ∧
    (∀ msg, fl.rollbackFileDeleteErr = some msg → fl.queueAddErr = none →
      (executeUploadTransaction w buf filename m fl now).2 =
        { w with files := w.files ++ [filename],
                 queue := queueUpsert w.queue filename now }) := by
  have hstep : executeUploadTransaction w buf filename m fl now =
      (.error e, rollbackUploadTransaction { w with files := w.files ++ [filename] }
        filename true false fl now) := by
    unfold executeUploadTransaction
    rw [hsave]
    dsimp only [storageSaveFile]
    rw [hfail]
  rw [hstep]
  refine ⟨rfl, ?_, ?_⟩
  · intro h0
    simp only [rollbackUploadTransaction, h0, storageDeleteFile, Bool.false_eq_true, if_false,
      reduceIte, contains_append_self]
  · intro msg h0 hq
    simp only [rollbackUploadTransaction, h0, hq, storageDeleteFile, Bool.false_eq_true, if_false,
      reduceIte, addToCleanupQueue, queueAdd]

/-- Witness for upload_insert_failure_compensation: an empty world, a forced
insert failure, both compensation outcomes spelled out. -/
theorem upload_insert_failure_compensation_witness :
    (executeUploadTransaction ⟨[], [], []⟩ [1] "f.png"
        ⟨"f.png", some "o.png", "/uploads/f.png", "image/png", 1⟩
        ⟨none, some "boom", none, none, none⟩ 7).1 =
      .error ⟨"Database error: boom", some 500⟩ ∧
    ((⟨none, some "boom", none, none, none⟩ : UploadFaults).rollbackFileDeleteErr = none →
      (executeUploadTransaction ⟨[], [], []⟩ [1] "f.png"
          ⟨"f.png", some "o.png", "/uploads/f.png", "image/png", 1⟩
          ⟨none, some "boom", none, none, none⟩ 7).2 =
        { images := ([] : List FileRecordRow), queue := ([] : List QueueRow),
          files := (([] : List String) ++ ["f.png"]).filter (fun n => n != "f.png") }) ∧
    (∀ msg, (⟨none, some "boom", none, none, none⟩ : UploadFaults).rollbackFileDeleteErr = some msg →
      (⟨none, some "boom", none, none, none⟩ : UploadFaults).queueAddErr = none →
      (executeUploadTransaction ⟨[], [], []⟩ [1] "f.png"
          ⟨"f.png", some "o.png", "/uploads/f.png", "image/png", 1⟩
          ⟨none, some "boom", none, none, none⟩ 7).2 =
        { images := ([] : List FileRecordRow),
          queue := queueUpsert ([] : List QueueRow) "f.png" 7,
          files := ([] : List String) ++ ["f.png"] }) :=
  upload_insert_failure_compensation ⟨[], [], []⟩ [1] "f.png"
    ⟨"f.png", some "o.png", "/uploads/f.png", "image/png", 1⟩
    ⟨none, some "boom", none, none, none⟩ 7
    ⟨"Database error: boom", some 500⟩ rfl rfl

/-- Claim C3: when the delete rollback's re-insert also fails, the name is
enqueued pending and the surfaced error is the distinguished
critical-inconsistency one — not the original blob error (which carries no
statusCode), not a not-found, not a wrapped database or storage error. -/
theorem delete_reinsert_failure_critical
    (w : World) (filename : String) (fl : DeleteFaults) (now : Nat)
    (row : FileRecordRow) (fsMsg dbMsg : String)
    (hfind : fl.findErr = none)
    (hrow : repoFindByName w filename = some row)
    (hdel : fl.repoDeleteErr = none)
    (hfs : fl.fileDeleteErr = some fsMsg)
    (hre : fl.rollbackCreateErr = some dbMsg)
    (hq : fl.queueAddErr = none) :
    (executeDeleteTransaction w filename fl now).1 = .error criticalRollbackError ∧
    (executeDeleteTransaction w filename fl now).2.queue = queueUpsert w.queue filename now ∧
    (∃ en ∈ (executeDeleteTransaction w filename fl now).2.queue,
       en.name = filename ∧ en.delete_state = false ∧ en.fail_time = now) ∧
    criticalRollbackError ≠ ⟨fsMsg, none⟩ ∧
    criticalRollbackError ≠ ⟨"File not found in database", some 404⟩ ∧
    criticalRollbackError ≠ ⟨"File not found", some 404⟩ ∧
    (∀ m2, criticalRollbackError ≠ ⟨"Database error: " ++ m2, some 500⟩) ∧
    (∀ m2, criticalRollbackError ≠ ⟨"File storage failed: " ++ m2, some 500⟩) := by
  have hany : w.images.any (fun r => r.name == filename) = true := any_of_find?_some hrow
  have hstep : executeDeleteTransaction w filename fl now =
      (.error criticalRollbackError,
       { w with images := w.images.filter (fun r => r.name != filename),
                queue := queueUpsert w.queue filename now }) := by
    unfold executeDeleteTransaction
    rw [hfind, hrow, hdel]
    dsimp only [repoDelete]
    rw [hany]
    simp only [reduceIte]
    rw [hfs]
    dsimp only [storageDeleteFile]
    unfold rollbackDeleteTransaction
    rw [hre]
    dsimp only [repoCreate]
    unfold addToCleanupQueue
    rw [hq]
    rfl
  rw [hstep]
  refine ⟨rfl, rfl, ?_, ?_, ?_, ?_, ?_, ?_⟩
  · exact queueUpsert_pending_entry w.queue filename now
  · intro hcontra
    have h2 : (some 500 : Option Nat) = none := congrArg JsError.statusCode hcontra
    cases h2
  · intro hcontra
    have h2 : (some 500 : Option Nat) = some 404 := congrArg JsError.statusCode hcontra
    exact absurd h2 (by decide)
  · intro hcontra
    have h2 : (some 500 : Option Nat) = some 404 := congrArg JsError.statusCode hcontra
    exact absurd h2 (by decide)
  · intro m2 hcontra
    exact critical_message_not_db m2 (congrArg JsError.message hcontra)
  · intro m2 hcontra
    exact critical_message_not_storage m2 (congrArg JsError.message hcontra)

/-- Witness for delete_reinsert_failure_critical at a one-file world. -/
theorem delete_reinsert_failure_critical_witness :
    (executeDeleteTransaction c2World "17_ab.png"
        ⟨none, none, some "EIO", some "conn reset", none⟩ 9).1 =
      .error criticalRollbackError ∧
    (executeDeleteTransaction c2World "17_ab.png"
        ⟨none, none, some "EIO", some "conn reset", none⟩ 9).2.queue =
      queueUpsert c2World.queue "17_ab.png" 9 ∧
    (∃ en ∈ (executeDeleteTransaction c2World "17_ab.png"
        ⟨none, none, some "EIO", some "conn reset", none⟩ 9).2.queue,
       en.name = "17_ab.png" ∧ en.delete_state = false ∧ en.fail_time = 9) ∧
    criticalRollbackError ≠ ⟨"EIO", none⟩ ∧
    criticalRollbackError ≠ ⟨"File not found in database", some 404⟩ ∧
    criticalRollbackError ≠ ⟨"File not found", some 404⟩ ∧
    (∀ m2, criticalRollbackError ≠ ⟨"Database error: " ++ m2, some 500⟩) ∧
    (∀ m2, criticalRollbackError ≠ ⟨"File storage failed: " ++ m2, some 500⟩) :=
  delete_reinsert_failure_critical c2World "17_ab.png"
    ⟨none, none, some "EIO", some "conn reset", none⟩ 9
    ⟨"17_ab.png", some "photo.png", "/uploads/17_ab.png", "image/png", 120000⟩
    "EIO" "conn reset" rfl rfl rfl rfl rfl rfl

/-- Composition helper: validateFile succeeds when each stage succeeds. -/
theorem validateFile_ok_parts (f : UploadedFile) (ext mt : String)
    (h1 : validateExtension f.originalname = .ok ext)
    (h2 : validateMimeType f = .ok mt)
    (h3 : crossValidateExtensionAndMime ext mt = .ok ())
    (h4 : validateFileSignature f mt = .ok ()) :
    validateFile f = .ok ⟨true, ext, mt, f.size⟩ := by
  simp [validateFile, h1, h2, h3, h4, Bind.bind, Except.bind]

/-- Composition helper: a signature-stage failure is the error validateFile
returns when the earlier stages succeed. -/
theorem validateFile_error_at_signature (f : UploadedFile) (ext mt : String) (e : JsError)
    (h1 : validateExtension f.originalname = .ok ext)
    (h2 : validateMimeType f = .ok mt)
    (h3 : crossValidateExtensionAndMime ext mt = .ok ())
    (h4 : validateFileSignature f mt = .error e) :
    validateFile f = .error e := by
  simp [validateFile, h1, h2, h3, h4, Bind.bind, Except.bind]

/-- Composition helper: a validation failure makes the controller answer with
the catch response and leave the stores untouched. -/
theorem uploadImage_validation_error (f : UploadedFile) (e : JsError)
    (hq : Bool) (tr : List Nat → String → Except JsError TransformResult)
    (un : String) (w : World) (fl : UploadFaults) (now : Nat)
    (hv : validateFile f = .error e) :
    uploadImage (some f) hq tr un w fl now = (catchResponse e, w) := by
  simp [uploadImage, hv]

/-- Claim C6 is a code bug: validateFile does not reject an oversized buffer.
The source calls validateFileSize but discards the returned result object,
and it passes the whole multer file object, whose length property is
undefined, so even the internal comparison never fires. A buffer four bytes
past the 5 MiB ceiling sails through the whole pipeline; the discarded check
itself would have flagged the byte count. -/
theorem validateFile_ignores_size_gate :
    oversizedPng.buffer.length > MAX_FILE_SIZE ∧
    (validateFileSize (some oversizedPng.buffer.length)).isValid = false ∧
    fileLengthProperty oversizedPng = none ∧
    (validateFileSize (fileLengthProperty oversizedPng)).isValid = true ∧
    validateFile oversizedPng = .ok ⟨true, ".png", "image/png", oversizedPng.size⟩ := by
  have hlen : oversizedPng.buffer.length = 4 + 5 * 1024 * 1024 := by
    show ([0x89, 0x50, 0x4E, 0x47] ++ List.replicate (5 * 1024 * 1024) 0).length
      = 4 + 5 * 1024 * 1024
    rw [List.length_append, List.length_replicate]
    rfl
  refine ⟨?_, ?_, rfl, rfl, ?_⟩
  · rw [hlen]; norm_num [MAX_FILE_SIZE]
  · rw [hlen]
    have hgt : jsGtUndef (some (4 + 5 * 1024 * 1024)) MAX_FILE_SIZE = true := by
      norm_num [jsGtUndef, MAX_FILE_SIZE]
    simp [validateFileSize, hgt]
  · apply validateFile_ok_parts oversizedPng ".png" "image/png" rfl rfl rfl
    have hnlt : ¬ (oversizedPng.buffer.length < ([0x89, 0x50, 0x4E, 0x47] : List Nat).length) := by
      rw [hlen]; norm_num
    have hbytes : ∀ t : List Nat,
        bytesStartWith (0x89 :: 0x50 :: 0x4E :: 0x47 :: t) [0x89, 0x50, 0x4E, 0x47] = true := by
      intro t
      simp [bytesStartWith]
    have hb : bufferStartsWith oversizedPng.buffer [0x89, 0x50, 0x4E, 0x47] = true := by
      unfold bufferStartsWith
      rw [if_neg hnlt]
      exact hbytes (List.replicate (5 * 1024 * 1024) 0)
    have hlk : FILE_SIGNATURES.lookup "image/png" = some [[0x89, 0x50, 0x4E, 0x47]] := rfl
    unfold validateFileSignature
    rw [hlk]
    dsimp only
    simp only [List.any_cons, List.any_nil, hb, Bool.or_false, List.isEmpty_cons,
      Bool.false_eq_true, if_false, reduceIte]

/-- Claim C10: a buffer shorter than every registered magic prefix for its
inferred media type (the empty buffer included) fails each prefix comparison
without any out-of-bounds read, the signature stage rejects it with the
generic error, and the controller then answers 400 with both stores
untouched. -/
theorem short_buffer_signature_rejected
    (f : UploadedFile) (ext mt : String) (sigs : List (List Nat))
    (hext : validateExtension f.originalname = .ok ext)
    (hmime : validateMimeType f = .ok mt)
    (hcross : crossValidateExtensionAndMime ext mt = .ok ())
    (hsig : FILE_SIGNATURES.lookup mt = some sigs)
    (hne : sigs ≠ [])
    (hshort : ∀ s ∈ sigs, f.buffer.length < s.length) :
    (∀ s ∈ sigs, bufferStartsWith f.buffer s = false) ∧
    validateFile f = .error ⟨HACKER_MESSAGE, some 400⟩ ∧
    (∀ (hq : Bool) (tr : List Nat → String → Except JsError TransformResult)
       (un : String) (w : World) (fl : UploadFaults) (now : Nat),
      uploadImage (some f) hq tr un w fl now = (.failure 400 HACKER_MESSAGE, w)) := by
  have hbs : ∀ s ∈ sigs, bufferStartsWith f.buffer s = false := by
    intro s hs
    unfold bufferStartsWith
    rw [if_pos (hshort s hs)]
  have hvs : validateFileSignature f mt = .error ⟨HACKER_MESSAGE, some 400⟩ := by
    unfold validateFileSignature
    rw [hsig]
    have hemp : sigs.isEmpty = false := by
      cases sigs with
      | nil => exact absurd rfl hne
      | cons a l => rfl
    have hany : sigs.any (fun s => bufferStartsWith f.buffer s) = false :=
      List.any_eq_false.mpr (fun s hs => by simp [hbs s hs])
    dsimp only
    rw [hemp, hany]
    simp only [Bool.false_eq_true, if_false]
  have hvf : validateFile f = .error ⟨HACKER_MESSAGE, some 400⟩ :=
    validateFile_error_at_signature f ext mt _ hext hmime hcross hvs
  refine ⟨hbs, hvf, ?_⟩
  intro hq tr un w fl now
  rw [uploadImage_validation_error f _ hq tr un w fl now hvf]
  rfl

/-- Witness for short_buffer_signature_rejected: the empty buffer named a.png,
inferred image/png, against the four-byte PNG prefix. -/
theorem short_buffer_signature_rejected_witness :
    (∀ s ∈ [[0x89, 0x50, 0x4E, 0x47]],
       bufferStartsWith (⟨"a.png", "image/png", [], 0⟩ : UploadedFile).buffer s = false) ∧
    validateFile ⟨"a.png", "image/png", [], 0⟩ = .error ⟨HACKER_MESSAGE, some 400⟩ ∧
    (∀ (hq : Bool) (tr : List Nat → String → Except JsError TransformResult)
       (un : String) (w : World) (fl : UploadFaults) (now : Nat),
      uploadImage (some ⟨"a.png", "image/png", [], 0⟩) hq tr un w fl now =
        (.failure 400 HACKER_MESSAGE, w)) :=
  short_buffer_signature_rejected ⟨"a.png", "image/png", [], 0⟩ ".png" "image/png"
    [[0x89, 0x50, 0x4E, 0x47]] rfl rfl rfl rfl (by decide) (by decide)

/-- Claim C9 counterexample: a genuine PNG whose client declared a bogus
content type uploads successfully, and the response's mimetype field echoes
the bogus declared type, while the pipeline-established type image/png is
what the metadata store records. -/
theorem upload_response_echoes_declared_type :
    (uploadImage (some c9File) false c9Transform "123_u.png" ⟨[], [], []⟩ noUploadFaults 7).1 =
      .success 200 ⟨"123_u.png", "photo.png", "/images/123_u.png", "application/x-evil", 5⟩ ∧
    validateFile c9File = .ok ⟨true, ".png", "image/png", 5⟩ ∧
    (repoFindByName (uploadImage (some c9File) false c9Transform "123_u.png" ⟨[], [], []⟩
        noUploadFaults 7).2 "123_u.png").map FileRecordRow.mime = some "image/png" ∧
    ("application/x-evil" : String) ≠ "image/png" :=
  ⟨rfl, rfl, rfl, by decide⟩

/-- Claim C9 as amended: every successful upload response carries the
client-declared mimetype of req.file and the length of the original
req.file.buffer; the validated media type (and, without a transform, the
recorded size equal to that same length) live in the stored FileRecord. -/
theorem upload_success_response_fields
    (f : UploadedFile) (hq : Bool) (tr : List Nat → String → Except JsError TransformResult)
    (un : String) (w : World) (fl : UploadFaults) (now : Nat)
    (s : Nat) (d : SuccessData) (w2 : World)
    (h : uploadImage (some f) hq tr un w fl now = (.success s d, w2)) :
    s = 200 ∧ d.mimetype = f.mimetype ∧ d.size = f.buffer.length ∧
    ∃ vr : ValidationResult, validateFile f = .ok vr ∧
      ∃ row : FileRecordRow, repoFindByName w2 un = some row ∧
        row.mime = vr.mimeType ∧ row.mask_name = some f.originalname ∧
        (hq = false → row.size = f.buffer.length ∧ d.size = row.size) := by
  unfold uploadImage at h
  dsimp only at h
  cases hv : validateFile f with
  | error e => rw [hv] at h; simp [catchResponse] at h
  | ok vr =>
    rw [hv] at h
    dsimp only at h
    cases ht : (if hq then
        (if isTransformableImage vr.mimeType then tr f.buffer vr.extension
         else Except.error (⟨"Transformation not supported", some 400⟩ : JsError))
        else Except.ok (⟨f.buffer, vr.extension, false⟩ : TransformResult)) with
    | error e => rw [ht] at h; simp [catchResponse] at h
    | ok trr =>
      rw [ht] at h
      dsimp only at h
      cases he : executeUploadTransaction w trr.buffer un
          ⟨un, some f.originalname, "/uploads/" ++ un, vr.mimeType, trr.buffer.length⟩ fl now with
      | mk res w1 =>
        rw [he] at h
        cases res with
        | error e => dsimp only at h; simp [catchResponse] at h
        | ok r =>
          dsimp only at h
          have hfst := congrArg Prod.fst h
          have hsnd := congrArg Prod.snd h
          dsimp only at hfst hsnd
          have hinj := (ControllerResponse.success.injEq _ _ _ _).mp hfst
          have hs200 : s = 200 := hinj.1.symm
          have hd : d = ⟨un, f.originalname, "/images/" ++ un, f.mimetype, f.buffer.length⟩ :=
            hinj.2.symm
          subst hsnd
          -- analyze the successful transaction
          unfold executeUploadTransaction at he
          cases hsv : fl.saveFileErr with
          | some m => rw [hsv] at he; simp [storageSaveFile] at he
          | none =>
            rw [hsv] at he
            dsimp only [storageSaveFile] at he
            cases hcr : repoCreate { w with files := w.files ++ [un] }
                ⟨un, some f.originalname, "/uploads/" ++ un, vr.mimeType, trr.buffer.length⟩
                fl.createErr with
            | error e => rw [hcr] at he; dsimp only at he; simp at he
            | ok w3 =>
              rw [hcr] at he
              dsimp only at he
              have hw1 : w1 = w3 := ((Prod.mk.injEq _ _ _ _).mp he).2.symm
              subst hw1
              -- analyze the successful create
              unfold repoCreate at hcr
              cases hce : fl.createErr with
              | some m => rw [hce] at hcr; cases hcr
              | none =>
                rw [hce] at hcr
                dsimp only at hcr
                cases hdup : w.images.any (fun r => r.name == un) with
                | true =>
                  rw [hdup] at hcr
                  simp only [reduceIte] at hcr
                  exact Except.noConfusion hcr
                | false =>
                  rw [hdup] at hcr
                  simp only [Bool.false_eq_true, if_false] at hcr
                  have hw3 := (Except.ok.inj hcr).symm
                  refine ⟨hs200, by rw [hd], by rw [hd], vr, rfl,
                    ⟨un, some f.originalname, "/uploads/" ++ un, vr.mimeType,
                      trr.buffer.length⟩, ?_, rfl, rfl, ?_⟩
                  · rw [hw3]
                    unfold repoFindByName
                    dsimp only
                    rw [List.find?_append]
                    have hnone : w.images.find? (fun r => r.name == un) = none :=
                      List.find?_eq_none.mpr (List.any_eq_false.mp hdup)
                    rw [hnone]
                    simp [List.find?]
                  · intro hqf
                    subst hqf
                    simp only [Bool.false_eq_true, if_false] at ht
                    have htr : trr = ⟨f.buffer, vr.extension, false⟩ := (Except.ok.inj ht).symm
                    constructor
                    · rw [htr]
                    · rw [hd, htr]

/-- Witness for upload_success_response_fields: an honest small PNG uploaded
into an empty world with no faults. -/
theorem upload_success_response_fields_witness :
    (200 : Nat) = 200 ∧
    (⟨"u.png", "photo.png", "/images/u.png", "image/png", 4⟩ : SuccessData).mimetype =
      (⟨"photo.png", "image/png", [0x89, 0x50, 0x4E, 0x47], 4⟩ : UploadedFile).mimetype ∧
    (⟨"u.png", "photo.png", "/images/u.png", "image/png", 4⟩ : SuccessData).size =
      (⟨"photo.png", "image/png", [0x89, 0x50, 0x4E, 0x47], 4⟩ : UploadedFile).buffer.length ∧
    ∃ vr : ValidationResult,
      validateFile ⟨"photo.png", "image/png", [0x89, 0x50, 0x4E, 0x47], 4⟩ = .ok vr ∧
      ∃ row : FileRecordRow,
        repoFindByName ⟨[⟨"u.png", some "photo.png", "/uploads/u.png", "image/png", 4⟩], [],
          ["u.png"]⟩ "u.png" = some row ∧
        row.mime = vr.mimeType ∧
        row.mask_name = some (⟨"photo.png", "image/png", [0x89, 0x50, 0x4E, 0x47], 4⟩ :
          UploadedFile).originalname ∧
        (false = false → row.size =
          (⟨"photo.png", "image/png", [0x89, 0x50, 0x4E, 0x47], 4⟩ :
            UploadedFile).buffer.length ∧
          (⟨"u.png", "photo.png", "/images/u.png", "image/png", 4⟩ : SuccessData).size = row.size) :=
  upload_success_response_fields
    ⟨"photo.png", "image/png", [0x89, 0x50, 0x4E, 0x47], 4⟩ false c9Transform "u.png"
    ⟨[], [], []⟩ noUploadFaults 1 200
    ⟨"u.png", "photo.png", "/images/u.png", "image/png", 4⟩
    ⟨[⟨"u.png", some "photo.png", "/uploads/u.png", "image/png", 4⟩], [], ["u.png"]⟩ rfl

/-- Updating rows keyed by an absent name is the identity. -/
theorem map_upd_id_of_absent (q : List QueueRow) (n : String) (t : Nat)
    (h : q.any (fun e => e.name == n) = false) :
    q.map (fun e => if e.name == n then { e with fail_time := t, delete_state := false } else e)
      = q := by
  induction q with
  | nil => rfl
  | cons x xs ih =>
    rw [List.any_cons, Bool.or_eq_false_iff] at h
    rw [List.map_cons, h.1]
    simp only [Bool.false_eq_true, if_false]
    rw [ih h.2]

/-- With unique names, the timestamp update leaves exactly the refreshed row
under the key. -/
theorem filter_upd_self (q : List QueueRow) (n : String) (t : Nat)
    (hnd : (q.map (fun e => e.name)).Nodup)
    (hany : q.any (fun e => e.name == n) = true) :
    ((q.map (fun e => if e.name == n then { e with fail_time := t, delete_state := false } else e)).filter
      (fun e => e.name == n)) = [⟨n, t, false⟩] := by
  induction q with
  | nil => cases hany
  | cons x xs ih =>
    rw [List.map_cons, List.nodup_cons] at hnd
    cases hx : x.name == n with
    | true =>
      have hxn : x.name = n := eq_of_beq hx
      have htail : xs.any (fun e => e.name == n) = false := by
        rw [List.any_eq_false]
        intro e he hbe
        exact hnd.1 (List.mem_map.mpr ⟨e, he, by rw [eq_of_beq hbe, ← hxn]⟩)
      rw [List.map_cons, hx]
      simp only [if_true]
      rw [map_upd_id_of_absent xs n t htail, List.filter_cons]
      simp only [hx, if_true]
      rw [List.filter_eq_nil_iff.mpr (fun e he => by simp [List.any_eq_false.mp htail e he]), hxn]
    | false =>
      rw [List.any_cons, hx, Bool.false_or] at hany
      rw [List.map_cons, hx]
      simp only [Bool.false_eq_true, if_false]
      rw [List.filter_cons]
      simp only [hx, Bool.false_eq_true, if_false]
      exact ih hnd.2 hany

/-- The timestamp update does not touch rows under other names. -/
theorem filter_map_upd_other (q : List QueueRow) (n : String) (t : Nat) :
    ((q.map (fun e => if e.name == n then { e with fail_time := t, delete_state := false } else e)).filter
      (fun e => e.name != n)) = q.filter (fun e => e.name != n) := by
  induction q with
  | nil => rfl
  | cons x xs ih =>
    rw [List.map_cons]
    by_cases hx : x.name = n
    · simp only [hx, beq_self_eq_true, if_true, List.filter_cons, bne_self_eq_false,
        Bool.false_eq_true, if_false]
      exact ih
    · have hbeq : (x.name == n) = false := beq_eq_false_iff_ne.mpr hx
      have hbne : (x.name != n) = true := by simp [bne, hbeq]
      simp only [hbeq, Bool.false_eq_true, if_false, List.filter_cons, hbne, if_true]
      rw [ih]

/-- Claim C8: CleanupQueueRepository.add is an upsert keyed by name. With the
table's unique-name constraint, adding leaves exactly one entry under the
name — pending, timestamped now — other entries are untouched, and adding the
same name twice in succession equals adding it once with the later
timestamp. -/
theorem queue_add_upsert_semantics
    (w : World) (n : String) (t : Nat)
    (hnd : (w.queue.map (fun e => e.name)).Nodup) :
    queueAdd w n t none = .ok { w with queue := queueUpsert w.queue n t } ∧
    (queueUpsert w.queue n t).filter (fun e => e.name == n) = [⟨n, t, false⟩] ∧
    (queueUpsert w.queue n t).filter (fun e => e.name != n) =
      w.queue.filter (fun e => e.name != n) ∧
    (∀ t2, queueUpsert (queueUpsert w.queue n t) n t2 = queueUpsert w.queue n t2) := by
  refine ⟨rfl, ?_, ?_, ?_⟩
  · unfold queueUpsert
    cases hq : w.queue.any (fun e => e.name == n) with
    | true =>
      simp only [if_true]
      exact filter_upd_self w.queue n t hnd hq
    | false =>
      simp only [Bool.false_eq_true, if_false]
      rw [List.filter_append, List.filter_eq_nil_iff.mpr (fun e he => by
        simp [List.any_eq_false.mp hq e he])]
      simp [List.filter_cons]
  · unfold queueUpsert
    cases hq : w.queue.any (fun e => e.name == n) with
    | true =>
      simp only [if_true]
      exact filter_map_upd_other w.queue n t
    | false =>
      simp only [Bool.false_eq_true, if_false]
      rw [List.filter_append]
      simp [List.filter_cons]
  · intro t2
    unfold queueUpsert
    cases hq : w.queue.any (fun e => e.name == n) with
    | true =>
      simp only [if_true]
      have hany2 : ((w.queue.map (fun e =>
          if e.name == n then { e with fail_time := t, delete_state := false } else e)).any
          (fun e => e.name == n)) = true := by
        rw [List.any_map]
        have hcomp : ((fun e : QueueRow => e.name == n) ∘ (fun e =>
            if e.name == n then { e with fail_time := t, delete_state := false } else e))
            = fun e => e.name == n := by
          funext e
          by_cases hx : e.name = n <;> simp [hx]
        rw [hcomp]
        exact hq
      rw [hany2]
      simp only [if_true]
      rw [List.map_map]
      congr 1
      funext e
      by_cases hx : e.name = n <;> simp [hx]
    | false =>
      simp only [Bool.false_eq_true, if_false]
      have hany2 : ((w.queue ++ ([⟨n, t, false⟩] : List QueueRow)).any
          (fun e => e.name == n)) = true := by
        rw [List.any_append, hq]
        simp
      rw [hany2]
      simp only [if_true]
      rw [List.map_append, map_upd_id_of_absent w.queue n t2 hq]
      simp

/-- Witness for queue_add_upsert_semantics: re-adding an already-resolved
queued name into a two-entry queue. -/
theorem queue_add_upsert_semantics_witness :
    queueAdd ⟨[], [⟨"a.png", 1, true⟩, ⟨"n.png", 2, true⟩], []⟩ "n.png" 5 none =
      .ok { images := ([] : List FileRecordRow),
            queue := queueUpsert [⟨"a.png", 1, true⟩, ⟨"n.png", 2, true⟩] "n.png" 5,
            files := ([] : List String) } ∧
    (queueUpsert [⟨"a.png", 1, true⟩, ⟨"n.png", 2, true⟩] "n.png" 5).filter
      (fun e => e.name == "n.png") = [⟨"n.png", 5, false⟩] ∧
    (queueUpsert [⟨"a.png", 1, true⟩, ⟨"n.png", 2, true⟩] "n.png" 5).filter
      (fun e => e.name != "n.png") =
      ([⟨"a.png", 1, true⟩, ⟨"n.png", 2, true⟩] : List QueueRow).filter
        (fun e => e.name != "n.png") ∧
    (∀ t2, queueUpsert (queueUpsert [⟨"a.png", 1, true⟩, ⟨"n.png", 2, true⟩] "n.png" 5)
        "n.png" t2 =
      queueUpsert [⟨"a.png", 1, true⟩, ⟨"n.png", 2, true⟩] "n.png" t2) :=
  queue_add_upsert_semantics ⟨[], [⟨"a.png", 1, true⟩, ⟨"n.png", 2, true⟩], []⟩ "n.png" 5
    (by decide)

/-- Processing one queue item never touches the metadata table. -/
theorem pone_images_eq (w : World) (m : String) :
    (processOneCleanupItem w m).images = w.images := by
  unfold processOneCleanupItem
  cases hf : repoFindByName w m with
  | none =>
    cases hex : storageFileExists w m with
    | true =>
      have hcont : w.files.contains m = true := hex
      simp only [reduceIte]
      unfold storageDeleteFile
      dsimp only
      rw [hcont]
      simp only [reduceIte]
      rfl
    | false =>
      simp only [Bool.false_eq_true, if_false]
      rfl
  | some r =>
    cases hex : storageFileExists w m with
    | true => simp only [reduceIte]; rfl
    | false => simp only [Bool.false_eq_true, if_false]; rfl

/-- Processing one queue item touches no other name's blob. -/
theorem pone_files_contains_other (w : World) (m n : String) (h : n ≠ m) :
    (processOneCleanupItem w m).files.contains n = w.files.contains n := by
  unfold processOneCleanupItem
  cases hf : repoFindByName w m with
  | none =>
    cases hex : storageFileExists w m with
    | true =>
      have hcont : w.files.contains m = true := hex
      simp only [reduceIte]
      unfold storageDeleteFile
      dsimp only
      rw [hcont]
      simp only [reduceIte]
      exact contains_filter_ne w.files n m h
    | false =>
      simp only [Bool.false_eq_true, if_false]
      rfl
  | some r =>
    cases hex : storageFileExists w m with
    | true => simp only [reduceIte]; rfl
    | false => simp only [Bool.false_eq_true, if_false]; rfl

/-- Cons step of find? at a matching head. -/
theorem find?_cons_pos (p : QueueRow → Bool) (x : QueueRow) (xs : List QueueRow)
    (h : p x = true) : (x :: xs).find? p = some x := by
  have hdef : (x :: xs).find? p =
      match p x with | true => some x | false => xs.find? p := rfl
  rw [hdef, h]

/-- Cons step of find? at a non-matching head. -/
theorem find?_cons_neg (p : QueueRow → Bool) (x : QueueRow) (xs : List QueueRow)
    (h : p x = false) : (x :: xs).find? p = xs.find? p := by
  have hdef : (x :: xs).find? p =
      match p x with | true => some x | false => xs.find? p := rfl
  rw [hdef, h]

/-- Marking a name leaves every other name's queue row unchanged. -/
theorem find?_mark_other (q : List QueueRow) (m n : String) (b : Bool) (h : n ≠ m) :
    ((q.map (fun e => if e.name == m then { e with delete_state := b } else e)).find?
      (fun e => e.name == n)) = q.find? (fun e => e.name == n) := by
  induction q with
  | nil => rfl
  | cons x xs ih =>
    rw [List.map_cons]
    by_cases hx : x.name = m
    · have hnb : (x.name == n) = false :=
        beq_eq_false_iff_ne.mpr (by rw [hx]; exact fun he => h he.symm)
      have hxb : (x.name == m) = true := by rw [hx]; exact beq_self_eq_true m
      rw [hxb]
      simp only [reduceIte]
      rw [find?_cons_neg (fun e => e.name == n) ⟨x.name, x.fail_time, b⟩ _ hnb,
        find?_cons_neg (fun e => e.name == n) x xs hnb]
      exact ih
    · have hbeq : (x.name == m) = false := beq_eq_false_iff_ne.mpr hx
      rw [hbeq]
      simp only [Bool.false_eq_true, if_false]
      cases hpn : x.name == n with
      | true =>
        rw [find?_cons_pos (fun e => e.name == n) _ _ hpn,
          find?_cons_pos (fun e => e.name == n) _ _ hpn]
      | false =>
        rw [find?_cons_neg (fun e => e.name == n) _ _ hpn,
          find?_cons_neg (fun e => e.name == n) _ _ hpn]
        exact ih

/-- Marking a present name rewrites exactly its delete_state. -/
theorem find?_mark_self (q : List QueueRow) (m : String) (b : Bool) (r : QueueRow)
    (h : q.find? (fun e => e.name == m) = some r) :
    ((q.map (fun e => if e.name == m then { e with delete_state := b } else e)).find?
      (fun e => e.name == m)) = some { r with delete_state := b } := by
  induction q with
  | nil => cases h
  | cons x xs ih =>
    rw [List.map_cons]
    cases hx : x.name == m with
    | true =>
      rw [find?_cons_pos (fun e => e.name == m) x xs hx] at h
      have hr : r = x := (Option.some.inj h).symm
      simp only [reduceIte]
      rw [find?_cons_pos (fun e => e.name == m) ⟨x.name, x.fail_time, b⟩ _ hx, hr]
    | false =>
      rw [find?_cons_neg (fun e => e.name == m) x xs hx] at h
      simp only [Bool.false_eq_true, if_false]
      rw [find?_cons_neg (fun e => e.name == m) x _ hx]
      exact ih h

/-- Processing one queue item leaves every other name's queue row unchanged. -/
theorem pone_queueEntry_other (w : World) (m n : String) (h : n ≠ m) :
    queueEntry (processOneCleanupItem w m) n = queueEntry w n := by
  unfold processOneCleanupItem queueEntry markAsProcessed
  cases hf : repoFindByName w m with
  | none =>
    cases hex : storageFileExists w m with
    | true =>
      have hcont : w.files.contains m = true := hex
      simp only [reduceIte]
      unfold storageDeleteFile
      dsimp only
      rw [hcont]
      simp only [reduceIte]
      exact find?_mark_other w.queue m n true h
    | false =>
      simp only [Bool.false_eq_true, if_false]
      exact find?_mark_other w.queue m n true h
  | some r =>
    cases hex : storageFileExists w m with
    | true =>
      simp only [reduceIte]
      exact find?_mark_other w.queue m n true h
    | false =>
      simp only [Bool.false_eq_true, if_false]
      exact find?_mark_other w.queue m n false h

/-- Folding the processor over names not containing n preserves n's blob. -/
theorem foldl_pone_files (L : List String) (w : World) (n : String) (h : n ∉ L) :
    (L.foldl processOneCleanupItem w).files.contains n = w.files.contains n := by
  induction L generalizing w with
  | nil => rfl
  | cons a l ih =>
    rw [List.foldl_cons, ih _ (fun hm => h (List.mem_cons_of_mem a hm)),
      pone_files_contains_other w a n (fun he => h (he ▸ List.mem_cons_self a l))]

/-- Folding the processor over names not containing n preserves n's row. -/
theorem foldl_pone_queueEntry (L : List String) (w : World) (n : String) (h : n ∉ L) :
    queueEntry (L.foldl processOneCleanupItem w) n = queueEntry w n := by
  induction L generalizing w with
  | nil => rfl
  | cons a l ih =>
    rw [List.foldl_cons, ih _ (fun hm => h (List.mem_cons_of_mem a hm)),
      pone_queueEntry_other w a n (fun he => h (he ▸ List.mem_cons_self a l))]

/-- Folding the processor never touches the metadata table. -/
theorem foldl_pone_images (L : List String) (w : World) :
    (L.foldl processOneCleanupItem w).images = w.images := by
  induction L generalizing w with
  | nil => rfl
  | cons a l ih =>
    rw [List.foldl_cons, ih, pone_images_eq]

/-- With unique queue names, the row of a member is what find? returns. -/
theorem find?_name_eq_of_nodup (l : List QueueRow) (q : QueueRow)
    (hnd : (l.map (fun e => e.name)).Nodup) (hm : q ∈ l) :
    l.find? (fun e => e.name == q.name) = some q := by
  induction l with
  | nil => cases hm
  | cons x xs ih =>
    rw [List.map_cons, List.nodup_cons] at hnd
    cases List.mem_cons.mp hm with
    | inl hx =>
      subst hx
      exact find?_cons_pos (fun e => e.name == q.name) _ _ (beq_self_eq_true q.name)
    | inr hx =>
      have hxname : (x.name == q.name) = false := by
        refine beq_eq_false_iff_ne.mpr (fun he => hnd.1 ?_)
        exact List.mem_map.mpr ⟨q, hx, he.symm⟩
      rw [find?_cons_neg (fun e => e.name == q.name) _ _ hxname]
      exact ih hnd.2 hx

/-- Step behavior at the item's own name when no metadata row exists: the blob
is gone afterwards (deleted when present) and the row is marked resolved. -/
theorem pone_self_nometa (w : World) (n : String) (r : QueueRow)
    (hf : repoFindByName w n = none) (hq : queueEntry w n = some r) :
    (processOneCleanupItem w n).files.contains n = false ∧
    queueEntry (processOneCleanupItem w n) n = some { r with delete_state := true } := by
  unfold processOneCleanupItem
  rw [hf]
  cases hex : storageFileExists w n with
  | true =>
    have hcont : w.files.contains n = true := hex
    simp only [reduceIte]
    unfold storageDeleteFile
    dsimp only
    rw [hcont]
    simp only [reduceIte]
    exact ⟨contains_filter_self w.files n, find?_mark_self w.queue n true r hq⟩
  | false =>
    have hcont : w.files.contains n = false := hex
    simp only [Bool.false_eq_true, if_false]
    exact ⟨hcont, find?_mark_self w.queue n true r hq⟩

/-- Step behavior at the item's own name when the metadata row exists: the row
is marked with the blob's presence bit — resolved when the blob is there,
still pending when it is missing. -/
theorem pone_self_meta (w : World) (n : String) (rowr : FileRecordRow) (r : QueueRow)
    (hf : repoFindByName w n = some rowr) (hq : queueEntry w n = some r) :
    queueEntry (processOneCleanupItem w n) n =
      some { r with delete_state := w.files.contains n } := by
  unfold processOneCleanupItem
  rw [hf]
  cases hex : storageFileExists w n with
  | true =>
    have hcont : w.files.contains n = true := hex
    simp only [reduceIte]
    rw [hcont]
    exact find?_mark_self w.queue n true r hq
  | false =>
    have hcont : w.files.contains n = false := hex
    simp only [Bool.false_eq_true, if_false]
    rw [hcont]
    exact find?_mark_self w.queue n false r hq

/-- Claim C4: for every pending entry processed in a fault-free run of the
queue processor — no metadata row: the blob is deleted when present and the
entry is marked resolved either way; metadata row present and blob present:
marked resolved; metadata row present but blob absent: left pending. -/
theorem cleanup_processor_convergence
    (w : World) (hnd : (w.queue.map (fun e => e.name)).Nodup)
    (q : QueueRow) (hq : q ∈ w.queue) (hpend : q.delete_state = false) :
    (repoFindByName w q.name = none →
       storageFileExists (processCleanupQueue w).2 q.name = false ∧
       queueEntry (processCleanupQueue w).2 q.name = some ⟨q.name, q.fail_time, true⟩) ∧
    (∀ r, repoFindByName w q.name = some r →
       queueEntry (processCleanupQueue w).2 q.name =
         some ⟨q.name, q.fail_time, storageFileExists w q.name⟩) := by
  have hmem : q.name ∈ pendingNames w := by
    refine List.mem_map.mpr ⟨q, List.mem_filter.mpr ⟨hq, ?_⟩, rfl⟩
    rw [hpend]
    rfl
  have hndp : (pendingNames w).Nodup :=
    hnd.sublist ((List.filter_sublist _).map _)
  obtain ⟨L1, L2, hsplit⟩ := List.append_of_mem hmem
  have hnd2 : (L1 ++ q.name :: L2).Nodup := hsplit ▸ hndp
  rw [List.nodup_append] at hnd2
  have hnotL1 : q.name ∉ L1 := fun hin => hnd2.2.2 hin (List.mem_cons_self _ _)
  have hnotL2 : q.name ∉ L2 := (List.nodup_cons.mp hnd2.2.1).1
  have hfold : (processCleanupQueue w).2 =
      L2.foldl processOneCleanupItem
        (processOneCleanupItem (L1.foldl processOneCleanupItem w) q.name) := by
    show (pendingNames w).foldl processOneCleanupItem w = _
    rw [hsplit, List.foldl_append, List.foldl_cons]
  have himg : (L1.foldl processOneCleanupItem w).images = w.images := foldl_pone_images L1 w
  have hfind1 : repoFindByName (L1.foldl processOneCleanupItem w) q.name =
      repoFindByName w q.name := by
    unfold repoFindByName
    rw [himg]
  have hfiles1 : (L1.foldl processOneCleanupItem w).files.contains q.name =
      w.files.contains q.name := foldl_pone_files L1 w q.name hnotL1
  have hentry1 : queueEntry (L1.foldl processOneCleanupItem w) q.name = some q := by
    rw [foldl_pone_queueEntry L1 w q.name hnotL1]
    exact find?_name_eq_of_nodup w.queue q hnd hq
  constructor
  · intro hnometa
    have hstep := pone_self_nometa (L1.foldl processOneCleanupItem w) q.name q
      (by rw [hfind1]; exact hnometa) hentry1
    constructor
    · show (processCleanupQueue w).2.files.contains q.name = false
      rw [hfold, foldl_pone_files L2 _ q.name hnotL2]
      exact hstep.1
    · rw [hfold, foldl_pone_queueEntry L2 _ q.name hnotL2]
      exact hstep.2
  · intro r hmeta
    have hstep := pone_self_meta (L1.foldl processOneCleanupItem w) q.name r q
      (by rw [hfind1]; exact hmeta) hentry1
    rw [hfold, foldl_pone_queueEntry L2 _ q.name hnotL2, hstep, hfiles1]
    rfl

/-- Witness for cleanup_processor_convergence: a queue holding one pending
entry whose metadata row exists but whose blob is missing — after processing
it remains pending. -/
theorem cleanup_processor_convergence_witness :
    (repoFindByName ⟨[⟨"m.png", none, "/uploads/m.png", "image/png", 1⟩],
        [⟨"m.png", 5, false⟩], []⟩ "m.png" = none →
       storageFileExists (processCleanupQueue ⟨[⟨"m.png", none, "/uploads/m.png", "image/png", 1⟩],
         [⟨"m.png", 5, false⟩], []⟩).2 "m.png" = false ∧
       queueEntry (processCleanupQueue ⟨[⟨"m.png", none, "/uploads/m.png", "image/png", 1⟩],
         [⟨"m.png", 5, false⟩], []⟩).2 "m.png" = some ⟨"m.png", 5, true⟩) ∧
    (∀ r, repoFindByName ⟨[⟨"m.png", none, "/uploads/m.png", "image/png", 1⟩],
        [⟨"m.png", 5, false⟩], []⟩ "m.png" = some r →
       queueEntry (processCleanupQueue ⟨[⟨"m.png", none, "/uploads/m.png", "image/png", 1⟩],
         [⟨"m.png", 5, false⟩], []⟩).2 "m.png" =
         some ⟨"m.png", 5,
           storageFileExists ⟨[⟨"m.png", none, "/uploads/m.png", "image/png", 1⟩],
             [⟨"m.png", 5, false⟩], []⟩ "m.png"⟩) :=
  cleanup_processor_convergence
    ⟨[⟨"m.png", none, "/uploads/m.png", "image/png", 1⟩], [⟨"m.png", 5, false⟩], []⟩
    (by decide) ⟨"m.png", 5, false⟩ (by decide) rfl

end FileUpload
